import Mathlib

/-!
Shallow embedding of `src/mcp/server.py` (the datezip MCP wrapper).

The wrapper shells out to an external `datezip` binary and parses its
line-oriented output with regular expressions.  The embedding models the
external process as an environment (`Env.run : List String → RunResult`,
the raw decoded stdout/stderr and the exit code), and each tool function as
a pure Lean function of that environment, mirroring the Python control flow
statement by statement.

Python string helpers (`str.strip`, `str.splitlines`, truthiness of `if
files:` / `if from_ts:`) are embedded directly.  The two regular
expressions of the file are embedded as character-list parsers with the
same prefix-matching semantics as `re.match` (anchored at the start of the
line, trailing text allowed).  The character classes `\d` and `\s` are
modelled by their ASCII fragments (the Python `re` module on `str` also
accepts non-ASCII digits and whitespace; every character the wrapper's own
patterns can feed into them — `[0-9]`, `FULL|INC`, timestamps — is ASCII).
-/

namespace Datezip

/-- Whitespace characters recognised by Python `str.strip` and by the regex
class `\s` (ASCII fragment: space, tab, newline, carriage return, vertical
tab, form feed). -/
def pyWhitespace (c : Char) : Bool :=
  c = ' ' || c = '\t' || c = '\n' || c = '\r' || c = '\x0b' || c = '\x0c'

/-- Python `str.strip()` on a character list: drop whitespace from both ends. -/
def pyStripList (l : List Char) : List Char :=
  ((l.dropWhile pyWhitespace).reverse.dropWhile pyWhitespace).reverse

/-- Python `str.strip()`. -/
def pyStrip (s : String) : String := ⟨pyStripList s.data⟩

/-- Line-break characters of Python `str.splitlines`. -/
def isLineBreak (c : Char) : Bool :=
  c = '\n' || c = '\r' || c = '\x0b' || c = '\x0c' || c = '\x1c' ||
  c = '\x1d' || c = '\x1e' || c = '\x85' || c = '\u2028' || c = '\u2029'

/-- Worker for `pySplitlines`: `acc` holds the current line reversed.
A final line break produces no trailing empty line, as in Python. -/
def splitlinesGo : List Char → List Char → List (List Char)
  | [], acc => [acc.reverse]
  | '\r' :: '\n' :: rest, acc =>
    if rest.isEmpty then [acc.reverse] else acc.reverse :: splitlinesGo rest []
  | c :: rest, acc =>
    if isLineBreak c then
      (if rest.isEmpty then [acc.reverse] else acc.reverse :: splitlinesGo rest [])
    else splitlinesGo rest (c :: acc)

/-- Python `str.splitlines()`. -/
def pySplitlines (s : String) : List String :=
  match s.data with
  | [] => []
  | c :: cs => (splitlinesGo (c :: cs) []).map fun l => ⟨l⟩

/-- Python `a or b` on strings: `b` when `a` is empty (falsy), else `a`. -/
def pyOr (a b : String) : String := if a = "" then b else a

/-- Truthiness of Python `if files:` for an `Optional[List[str]]`:
true only for a present, non-empty list. -/
def pyTruthyList (xs : Option (List String)) : Bool :=
  match xs with
  | some (_ :: _) => true
  | _ => false

/-- Truthiness of Python `if from_ts:` for an `Optional[str]`:
true only for a present, non-empty string. -/
def pyTruthyStr (s : Option String) : Bool :=
  match s with
  | some t => !(t = "")
  | none => false

/-- Consume a literal character sequence (regex literal text); `none` when
the input does not start with it. -/
def dropLit : List Char → List Char → Option (List Char)
  | [], cs => some cs
  | p :: ps, c :: cs => if c = p then dropLit ps cs else none
  | _ :: _, [] => none

/-- Consume `\d+` (one or more digits, greedy; the following regex token is
never a digit in the embedded patterns, so greedy matching is exact). -/
def dropDigitsOne : List Char → Option (List Char)
  | c :: cs => if c.isDigit then some (cs.dropWhile Char.isDigit) else none
  | [] => none

/-- Consume `\s+` (one or more whitespace, greedy; the following regex token
is never whitespace in the embedded patterns, so greedy matching is exact). -/
def dropSpacesOne : List Char → Option (List Char)
  | c :: cs => if pyWhitespace c then some (cs.dropWhile pyWhitespace) else none
  | [] => none

/-- Consume exactly `n` digits (`[0-9]{n}`), returning them and the rest. -/
def takeExactDigits : Nat → List Char → Option (List Char × List Char)
  | 0, cs => some ([], cs)
  | n + 1, c :: cs =>
    if c.isDigit then
      match takeExactDigits n cs with
      | some (ds, rest) => some (c :: ds, rest)
      | none => none
    else none
  | _ + 1, [] => none

/-- Consume exactly `n` digits without capturing. -/
def dropExactDigits : Nat → List Char → Option (List Char)
  | 0, cs => some cs
  | n + 1, c :: cs => if c.isDigit then dropExactDigits n cs else none
  | _ + 1, [] => none

/-- Whether a string matches `[0-9]{8}_[0-9]{6}` exactly (the timestamp
format `YYYYMMDD_HHMMSS`). -/
def tsFormatB (s : String) : Bool :=
  match dropExactDigits 8 s.data with
  | some ('_' :: rest) =>
    match dropExactDigits 6 rest with
    | some [] => true
    | _ => false
  | _ => false

/-- The alternation `(FULL|INC)` of the `--list` pattern. -/
def takeFullOrInc (cs : List Char) : Option (String × List Char) :=
  match dropLit "FULL".data cs with
  | some r => some ("FULL", r)
  | none =>
    match dropLit "INC".data cs with
    | some r => some ("INC", r)
    | none => none

/-- `re.match` of `^\[\d+\]\s+(datezip_([0-9]{8}_[0-9]{6})_(FULL|INC)\.zip)`
against a line: `some (group1, group2, group3)` on success, i.e.
(filename, timestamp, type).  Trailing text after `.zip` is allowed, as
`re.match` only anchors the start. -/
def listBackupsMatch (cs : List Char) : Option (String × String × String) := do
  let r1 ← dropLit ['['] cs
  let r2 ← dropDigitsOne r1
  let r3 ← dropLit [']'] r2
  let r4 ← dropSpacesOne r3
  let r5 ← dropLit "datezip_".data r4
  let (d1, r6) ← takeExactDigits 8 r5
  let r7 ← dropLit ['_'] r6
  let (d2, r8) ← takeExactDigits 6 r7
  let r9 ← dropLit ['_'] r8
  let (ty, r10) ← takeFullOrInc r9
  let _ ← dropLit ".zip".data r10
  let ts : String := ⟨d1 ++ '_' :: d2⟩
  some ("datezip_" ++ ts ++ "_" ++ ty ++ ".zip", ts, ty)

/-- `re.match` of `^([0-9]{8}_[0-9]{6})\s+([\+\.])\s+(.+)$` against a line:
`some (group1, group2, group3)` on success, i.e. (timestamp, marker,
file path).  The lines this is applied to are stripped, so the greedy
`\s+` before `(.+)$` never needs to backtrack (a stripped line has no
trailing whitespace), and the remainder after it is the whole group 3. -/
def historyMatch (cs : List Char) : Option (String × Char × String) := do
  let (d1, r1) ← takeExactDigits 8 cs
  let r2 ← dropLit ['_'] r1
  let (d2, r3) ← takeExactDigits 6 r2
  let r4 ← dropSpacesOne r3
  match r4 with
  | [] => none
  | m :: r5 =>
    if m = '+' || m = '.' then
      match dropSpacesOne r5 with
      | some (c :: r6) => some (⟨d1 ++ '_' :: d2⟩, m, ⟨c :: r6⟩)
      | _ => none
    else none

/-- Result of one invocation of the external `datezip` process:
exit code and the decoded stdout/stderr. -/
structure RunResult where
  code : Int
  stdout : String
  stderr : String
deriving DecidableEq, Repr

/-- The external world the wrapper talks to: the `datezip` binary as a
function from argument lists to process results. -/
structure Env where
  run : List String → RunResult

/-- `run_datezip(*args)` of the source: execute the binary and strip both
output streams (`stdout.decode().strip()`, `stderr.decode().strip()`). -/
def run_datezip (env : Env) (args : List String) : RunResult :=
  let r := env.run args
  ⟨r.code, pyStrip r.stdout, pyStrip r.stderr⟩

/-- Arguments `create_backup` passes to the binary: `--full` for mode
`"full"`, `--inc` for mode `"inc"`, nothing otherwise. -/
def createBackupArgs (mode : String) : List String :=
  if mode = "full" then ["--full"]
  else if mode = "inc" then ["--inc"]
  else []

/-- `create_backup(mode)` of the source. -/
def create_backup (env : Env) (mode : String) : String :=
  let r := run_datezip env (createBackupArgs mode)
  if r.code ≠ 0 then "Backup failed:\n" ++ pyOr r.stderr r.stdout
  else "Backup successful:\n" ++ r.stdout

/-- One element of `list_backups`' result. -/
structure BackupEntry where
  filename : String
  timestamp : String
  type : String
deriving DecidableEq, Repr

/-- The parsing loop of `list_backups`: match each stripped line of stdout
against the `--list` pattern and keep the groups of the matching lines. -/
def parseListBackups (stdout : String) : List BackupEntry :=
  (pySplitlines stdout).filterMap fun line =>
    (listBackupsMatch (pyStrip line).data).map fun r => ⟨r.1, r.2.1, r.2.2⟩

/-- `list_backups()` of the source; the Python `raise RuntimeError(...)` is
embedded as `Except.error` with the same message. -/
def list_backups (env : Env) : Except String (List BackupEntry) :=
  let r := run_datezip env ["--list"]
  if r.code ≠ 0 then Except.error ("Failed to list backups: " ++ r.stderr)
  else Except.ok (parseListBackups r.stdout)

/-- One element of `get_history`'s result. -/
structure HistoryEntry where
  timestamp : String
  status : String
  file : String
deriving DecidableEq, Repr

/-- Arguments `get_history` passes to the binary: `--history`, then
`--files`/`--from`/`--to` exactly for the truthy optional arguments
(Python `if files:` / `if from_ts:` / `if to_ts:`). -/
def get_history_args (files : Option (List String)) (from_ts to_ts : Option String) :
    List String :=
  ["--history"]
  ++ (if pyTruthyList files then ["--files", String.intercalate "," (files.getD [])] else [])
  ++ (if pyTruthyStr from_ts then ["--from", from_ts.getD ""] else [])
  ++ (if pyTruthyStr to_ts then ["--to", to_ts.getD ""] else [])

/-- The parsing loop of `get_history`: match each stripped line against the
history pattern; status is `"new"` for marker `'+'` and `"modified"`
otherwise (the pattern only admits `'+'` and `'.'`). -/
def parseHistory (stdout : String) : List HistoryEntry :=
  (pySplitlines stdout).filterMap fun line =>
    (historyMatch (pyStrip line).data).map fun r =>
      ⟨r.1, if r.2.1 = '+' then "new" else "modified", r.2.2⟩

/-- `get_history(files, from_ts, to_ts)` of the source; the Python
`raise RuntimeError(...)` is embedded as `Except.error`. -/
def get_history (env : Env) (files : Option (List String)) (from_ts to_ts : Option String) :
    Except String (List HistoryEntry) :=
  let r := run_datezip env (get_history_args files from_ts to_ts)
  if r.code ≠ 0 then Except.error ("Failed to get history: " ++ r.stderr)
  else Except.ok (parseHistory r.stdout)

/-- Observable side effects of `get_historical_content`:
`tempfile.mkdtemp()`, the external process invocation, and
`shutil.rmtree`. -/
inductive Effect where
  | mkdtemp (dir : String)
  | runCmd (args : List String)
  | rmtree (dir : String)
deriving DecidableEq, Repr

/-- How a Python call ends: a returned string, or a propagated exception. -/
inductive Outcome where
  | ok (s : String)
  | raised (msg : String)
deriving DecidableEq, Repr

/-- The external world of `get_historical_content`: the binary, plus the
filesystem calls the function makes.  `tmpDir` is the directory
`tempfile.mkdtemp()` returns (fresh by mkdtemp's contract);
`readFile` returns `Except.error` when `open`/`read` raises. -/
structure FsEnv extends Env where
  tmpDir : String
  pathExists : String → Bool
  readFile : String → Except String String

/-- `os.path.join` for two POSIX path components: an absolute second
component replaces the first. -/
def osPathJoin (a b : String) : String :=
  match b.data with
  | '/' :: _ => b
  | _ =>
    if a = "" then b
    else
      match a.data.getLast? with
      | some '/' => a ++ b
      | _ => a ++ "/" ++ b

/-- Arguments `get_historical_content` passes to the binary. -/
def ghcArgs (tmp timestamp filename : String) : List String :=
  ["--restore-time", timestamp, "--files", filename, "--dest", tmp,
   "--restore-type", "e"]

/-- The `try` block of `get_historical_content`: run the binary with the
temporary directory as destination, then read the requested file out of
it.  Every branch of the Python body is mirrored; a raising
`open`/`read` becomes `Outcome.raised`. -/
def ghcBody (env : FsEnv) (timestamp filename : String) : Outcome :=
  let r := run_datezip env.toEnv (ghcArgs env.tmpDir timestamp filename)
  if r.code ≠ 0 then
    Outcome.ok ("Error retrieving historical content: " ++ pyOr r.stderr r.stdout)
  else
    let target := osPathJoin env.tmpDir filename
    if env.pathExists target then
      match env.readFile target with
      | Except.ok content => Outcome.ok content
      | Except.error m => Outcome.raised m
    else
      Outcome.ok ("Error: File '" ++ filename ++ "' not found in archive at timestamp "
        ++ timestamp ++ ".")

/-- `get_historical_content(timestamp, filename)` of the source, with its
effect trace.  `tempfile.mkdtemp()` precedes the `try` block; the
`finally: shutil.rmtree(tmp_dir)` appends the removal to the trace no
matter how the body ends (returns or raises), which is exactly the
semantics of Python's `try/finally`. -/
def get_historical_content (env : FsEnv) (timestamp filename : String) :
    Outcome × List Effect :=
  let tmp := env.tmpDir
  (ghcBody env timestamp filename,
   Effect.mkdtemp tmp :: [Effect.runCmd (ghcArgs tmp timestamp filename)]
     ++ [Effect.rmtree tmp])

/-- Arguments `restore_state` passes to the binary: timestamp and restore
type always, `--files` only for a truthy `files`; no destination flag
exists in this function. -/
def restore_state_args (timestamp : String) (files : Option (List String))
    (restore_type : String) : List String :=
  ["--restore-time", timestamp, "--restore-type", restore_type]
  ++ (if pyTruthyList files then ["--files", String.intercalate "," (files.getD [])] else [])

/-- `restore_state(timestamp, files, restore_type)` of the source. -/
def restore_state (env : Env) (timestamp : String) (files : Option (List String))
    (restore_type : String) : String :=
  let r := run_datezip env (restore_state_args timestamp files restore_type)
  if r.code ≠ 0 then "Restore failed:\n" ++ pyOr r.stderr r.stdout
  else "Restore successful:\n" ++ r.stdout

/-- The value after the first `--dest` flag of an argument list, if any. -/
def destFlag : List String → Option String
  | a :: v :: rest => if a = "--dest" then some v else destFlag (v :: rest)
  | _ => none

/-- Whether an `Except` result is a success. -/
def exceptIsOk {ε α : Type} : Except ε α → Bool
  | Except.ok _ => true
  | Except.error _ => false

/-- Concrete environment: the binary always fails with exit code 3. -/
def envFail : Env := ⟨fun _ => ⟨3, " out ", " err "⟩⟩

/-- Concrete environment: the binary succeeds and lists two archives plus a
trailing summary line that matches no pattern. -/
def envListSample : Env :=
  ⟨fun _ => ⟨0, "[0] datezip_20240216_143000_FULL.zip  (2.3 MB)\n[1] datezip_20240216_150000_INC.zip\nTotal: 2 archives", ""⟩⟩

/-- Concrete environment: the binary succeeds with two history lines and one
garbage line. -/
def envHistorySample : Env :=
  ⟨fun _ => ⟨0, "20240216_143000 + src/main.py\n20240216_150000 . src/main.py\nnot a history line", ""⟩⟩

/-- Concrete environment for `get_historical_content`: the binary succeeds
but the requested file is absent from the restored output. -/
def envGhcMissing : FsEnv :=
  ⟨⟨fun _ => ⟨0, "", ""⟩⟩, "/tmp/datezip_scratch", fun _ => false,
    fun _ => Except.error "unreadable"⟩

/-- The first parsed entry of `envListSample`'s output. -/
def sampleFull : BackupEntry :=
  ⟨"datezip_20240216_143000_FULL.zip", "20240216_143000", "FULL"⟩

/-- The second parsed entry of `envListSample`'s output. -/
def sampleInc : BackupEntry :=
  ⟨"datezip_20240216_150000_INC.zip", "20240216_150000", "INC"⟩

/-- The first parsed entry of `envHistorySample`'s output. -/
def sampleNew : HistoryEntry := ⟨"20240216_143000", "new", "src/main.py"⟩

/-- The second parsed entry of `envHistorySample`'s output. -/
def sampleMod : HistoryEntry := ⟨"20240216_150000", "modified", "src/main.py"⟩

/-- What the amended C3 says the command line is: `--history`, then
`--files` with the comma-joined paths only for a present non-empty list,
then `--from`/`--to` only for present non-empty bounds.  Written from the
amended claim's words, to be compared with `get_history_args` (from the
source). -/
def historyFlagsSpec (files : Option (List String)) (from_ts to_ts : Option String) :
    List String :=
  ["--history"]
  ++ (match files with
      | some (p :: ps) => ["--files", String.intercalate "," (p :: ps)]
      | _ => [])
  ++ (match from_ts with
      | some s => if s = "" then [] else ["--from", s]
      | none => [])
  ++ (match to_ts with
      | some s => if s = "" then [] else ["--to", s]
      | none => [])

/-! ## Helper lemmas about the parser combinators -/

/-- Consuming a literal splits the input. -/
theorem dropLit_eq_some : ∀ {p cs r : List Char}, dropLit p cs = some r → cs = p ++ r := by
  intro p
  induction p with
  | nil =>
    intro cs r h
    simp only [dropLit, Option.some.injEq] at h
    simp [h]
  | cons p ps ih =>
    intro cs r h
    cases cs with
    | nil => simp [dropLit] at h
    | cons c cs =>
      simp only [dropLit] at h
      by_cases hc : c = p
      · rw [if_pos hc] at h
        subst hc
        simp [ih h]
      · rw [if_neg hc] at h
        cases h

/-- Taking exactly `n` digits splits the input into `n` digits and the rest. -/
theorem takeExactDigits_eq_some : ∀ {n : Nat} {cs ds r : List Char},
    takeExactDigits n cs = some (ds, r) →
    cs = ds ++ r ∧ ds.length = n ∧ ∀ c ∈ ds, c.isDigit = true := by
  intro n
  induction n with
  | zero =>
    intro cs ds r h
    simp only [takeExactDigits, Option.some.injEq, Prod.mk.injEq] at h
    obtain ⟨h1, h2⟩ := h
    subst h1; subst h2
    simp
  | succ n ih =>
    intro cs ds r h
    cases cs with
    | nil => simp [takeExactDigits] at h
    | cons c cs =>
      simp only [takeExactDigits] at h
      by_cases hc : c.isDigit
      · rw [if_pos hc] at h
        cases hk : takeExactDigits n cs with
        | none => rw [hk] at h; cases h
        | some p =>
          obtain ⟨ds', r'⟩ := p
          rw [hk] at h
          simp only [Option.some.injEq, Prod.mk.injEq] at h
          obtain ⟨h1, h2⟩ := h
          subst h1; subst h2
          obtain ⟨e1, e2, e3⟩ := ih hk
          refine ⟨by simp [e1], by simp [e2], ?_⟩
          intro x hx
          rcases List.mem_cons.mp hx with h | h
          · subst h; exact hc
          · exact e3 x h
      · rw [if_neg hc] at h
        cases h

/-- Dropping the length of an all-digit block from that block plus a rest
yields the rest. -/
theorem dropExactDigits_append : ∀ (ds r : List Char), (∀ c ∈ ds, c.isDigit = true) →
    dropExactDigits ds.length (ds ++ r) = some r
  | [], _, _ => rfl
  | d :: ds, r, h => by
    have hd : d.isDigit = true := h d (by simp)
    simp only [List.length_cons, List.cons_append, dropExactDigits, hd, if_true]
    exact dropExactDigits_append ds r fun c hc => h c (by simp [hc])

/-- Consuming `\s+` splits the input into a non-empty whitespace block and
the rest. -/
theorem dropSpacesOne_eq_some {cs r : List Char} (h : dropSpacesOne cs = some r) :
    ∃ w, cs = w ++ r ∧ w ≠ [] ∧ ∀ c ∈ w, pyWhitespace c = true := by
  cases cs with
  | nil => simp [dropSpacesOne] at h
  | cons c cs =>
    simp only [dropSpacesOne] at h
    by_cases hc : pyWhitespace c
    · rw [if_pos hc] at h
      injection h with h
      refine ⟨c :: cs.takeWhile pyWhitespace, ?_, by simp, ?_⟩
      · rw [← h]
        simp [List.takeWhile_append_dropWhile]
      · intro x hx
        rcases List.mem_cons.mp hx with h' | h'
        · subst h'; exact hc
        · exact List.mem_takeWhile_imp h'
    · rw [if_neg hc] at h
      cases h

/-- A string assembled from 8 digits, an underscore and 6 digits has the
timestamp format. -/
theorem tsFormatB_of_digits {d1 d2 : List Char} (h1 : d1.length = 8) (h2 : d2.length = 6)
    (hd1 : ∀ c ∈ d1, c.isDigit = true) (hd2 : ∀ c ∈ d2, c.isDigit = true) :
    tsFormatB ⟨d1 ++ '_' :: d2⟩ = true := by
  have e1 : dropExactDigits 8 (d1 ++ '_' :: d2) = some ('_' :: d2) := by
    rw [← h1]
    exact dropExactDigits_append d1 ('_' :: d2) hd1
  have e2 : dropExactDigits 6 d2 = some [] := by
    have h := dropExactDigits_append d2 [] hd2
    rw [h2, List.append_nil] at h
    exact h
  unfold tsFormatB
  rw [show (String.mk (d1 ++ '_' :: d2)).data = d1 ++ '_' :: d2 from rfl, e1]
  simp [e2]

/-- The `(FULL|INC)` alternation yields one of its two literals and splits
the input. -/
theorem takeFullOrInc_eq_some {cs : List Char} {ty : String} {r : List Char}
    (h : takeFullOrInc cs = some (ty, r)) :
    (ty = "FULL" ∨ ty = "INC") ∧ cs = ty.data ++ r := by
  unfold takeFullOrInc at h
  cases hF : dropLit "FULL".data cs with
  | some rf =>
    rw [hF] at h
    simp only [Option.some.injEq, Prod.mk.injEq] at h
    obtain ⟨h1, h2⟩ := h
    subst h1; subst h2
    exact ⟨Or.inl rfl, dropLit_eq_some hF⟩
  | none =>
    rw [hF] at h
    cases hI : dropLit "INC".data cs with
    | some ri =>
      rw [hI] at h
      simp only [Option.some.injEq, Prod.mk.injEq] at h
      obtain ⟨h1, h2⟩ := h
      subst h1; subst h2
      exact ⟨Or.inr rfl, dropLit_eq_some hI⟩
    | none =>
      rw [hI] at h
      cases h


theorem listBackupsMatch_eq_some {cs : List Char} {f ts ty : String}
    (h : listBackupsMatch cs = some (f, ts, ty)) :
    f = "datezip_" ++ ts ++ "_" ++ ty ++ ".zip" ∧ tsFormatB ts = true ∧
    (ty = "FULL" ∨ ty = "INC") := by
  simp only [listBackupsMatch, bind, Option.bind_eq_some, Prod.exists,
    Option.some.injEq, Prod.mk.injEq] at h
  obtain ⟨r1, h1, r2, h2, r3, h3, r4, h4, r5, h5, d1, r6, h6, r7, h7, d2, r8, h8,
    r9, h9, ty', r10, h10, r11, h11, hf, hts, hty⟩ := h
  subst hf; subst hts; subst hty
  obtain ⟨-, hlen1, hdig1⟩ := takeExactDigits_eq_some h6
  obtain ⟨-, hlen2, hdig2⟩ := takeExactDigits_eq_some h8
  refine ⟨rfl, tsFormatB_of_digits hlen1 hlen2 hdig1 hdig2, (takeFullOrInc_eq_some h10).1⟩

theorem historyMatch_eq_some {cs : List Char} {ts : String} {m : Char} {fl : String}
    (h : historyMatch cs = some (ts, m, fl)) :
    (m = '+' ∨ m = '.') ∧ tsFormatB ts = true ∧ fl.data ≠ [] ∧
    ∃ w1 w2, cs = ts.data ++ (w1 ++ (m :: (w2 ++ fl.data))) ∧ w1 ≠ [] ∧ w2 ≠ [] ∧
      (∀ c ∈ w1, pyWhitespace c = true) ∧ (∀ c ∈ w2, pyWhitespace c = true) := by
  simp only [historyMatch, bind, Option.bind_eq_some, Prod.exists,
    Option.some.injEq, Prod.mk.injEq] at h
  obtain ⟨d1, r1, h1, r2, h2, d2, r3, h3, r4, h4, hrest⟩ := h
  cases r4 with
  | nil => simp at hrest
  | cons mk r5 =>
    simp only at hrest
    by_cases hm : mk = '+' || mk = '.'
    · rw [if_pos hm] at hrest
      cases h5 : dropSpacesOne r5 with
      | none => rw [h5] at hrest; simp at hrest
      | some r6 =>
        rw [h5] at hrest
        cases r6 with
        | nil => simp at hrest
        | cons c r7 =>
          simp only [Option.some.injEq, Prod.mk.injEq] at hrest
          obtain ⟨hts, hmk, hfl⟩ := hrest
          subst hts; subst hmk; subst hfl
          obtain ⟨e1, hlen1, hdig1⟩ := takeExactDigits_eq_some h1
          obtain ⟨e3, hlen2, hdig2⟩ := takeExactDigits_eq_some h3
          have e2 := dropLit_eq_some h2
          obtain ⟨w1, e4, hw1ne, hw1⟩ := dropSpacesOne_eq_some h4
          obtain ⟨w2, e5, hw2ne, hw2⟩ := dropSpacesOne_eq_some h5
          refine ⟨?_, tsFormatB_of_digits hlen1 hlen2 hdig1 hdig2, by simp, ?_⟩
          · rcases Bool.or_eq_true_iff.mp hm with h | h
            · exact Or.inl (by simpa using h)
            · exact Or.inr (by simpa using h)
          · refine ⟨w1, w2, ?_, hw1ne, hw2ne, hw1, hw2⟩
            subst e1; subst e2; subst e3; subst e4; subst e5
            simp [List.append_assoc]
    · rw [if_neg hm] at hrest
      cases hrest



/-- A list without the literal `--dest` has no destination flag. -/
theorem destFlag_eq_none : ∀ {l : List String}, "--dest" ∉ l → destFlag l = none
  | [], _ => rfl
  | [_], _ => rfl
  | a :: v :: rest, h => by
    simp only [destFlag]
    rw [if_neg fun e => h (by simp [e]),
      destFlag_eq_none fun hm => h (List.mem_cons_of_mem _ hm)]

/-- A success message of `create_backup` never equals a failure message:
the two fixed literals differ within their first 15 characters. -/
theorem backup_success_ne_failed (a b : String) :
    ("Backup successful:\n" ++ a) ≠ ("Backup failed:\n" ++ b) := by
  intro h
  have hd : ∀ x y : String, (x ++ y).data = x.data ++ y.data := fun _ _ => rfl
  have h2 := congrArg (fun s => s.data.take 15) h
  simp only [hd] at h2
  rw [List.take_append_of_le_length (by decide),
    List.take_append_of_le_length (by decide)] at h2
  exact absurd h2 (by decide)

/-! ## The claims -/

/-- C1: every call of `get_historical_content` invokes the external restore
command with the freshly created temporary directory (`tempfile.mkdtemp`'s
result, `env.tmpDir`) as its `--dest` destination — never any other
directory, so in particular never the live workspace — and its effect trace
begins with creating that directory and ends with removing it.  The
environment is universally quantified, so this covers every exit path:
command success, command failure, requested file missing, and a raising
read. -/
theorem C1_ghc_isolated_tmpdir_cleanup (env : FsEnv) (timestamp filename : String) :
    (∀ args, Effect.runCmd args ∈ (get_historical_content env timestamp filename).2 →
      args = ghcArgs env.tmpDir timestamp filename ∧
      List.get? args 4 = some "--dest" ∧
      List.get? args 5 = some env.tmpDir ∧
      ∀ ws, ws ≠ env.tmpDir → List.get? args 5 ≠ some ws) ∧
    (get_historical_content env timestamp filename).2.head? =
      some (Effect.mkdtemp env.tmpDir) ∧
    (get_historical_content env timestamp filename).2.getLast? =
      some (Effect.rmtree env.tmpDir) ∧
    Effect.runCmd (ghcArgs env.tmpDir timestamp filename) ∈
      (get_historical_content env timestamp filename).2 := by
  refine ⟨?_, rfl, rfl, by simp [get_historical_content]⟩
  intro args hmem
  simp only [get_historical_content, List.cons_append, List.nil_append,
    List.mem_cons, List.not_mem_nil, or_false] at hmem
  rcases hmem with h | h | h
  · cases h
  · obtain ⟨rfl⟩ := h
    exact ⟨rfl, rfl, rfl, fun ws hws hsome => hws (by injection hsome with h; exact h.symm)⟩
  · cases h

/-- C4: when the external restore command exits zero but the requested file
is absent from the restored output, `get_historical_content` returns an
error message naming the missing file and the timestamp — it neither raises
nor returns file content. -/
theorem C4_missing_file_per_file_error (env : FsEnv) (timestamp filename : String)
    (hcode : (env.run (ghcArgs env.tmpDir timestamp filename)).code = 0)
    (habsent : env.pathExists (osPathJoin env.tmpDir filename) = false) :
    (get_historical_content env timestamp filename).1 =
      Outcome.ok ("Error: File '" ++ filename ++ "' not found in archive at timestamp "
        ++ timestamp ++ ".") ∧
    (∀ msg, (get_historical_content env timestamp filename).1 ≠ Outcome.raised msg) ∧
    (∃ a b, "Error: File '" ++ filename ++ "' not found in archive at timestamp "
        ++ timestamp ++ "." = a ++ filename ++ b) ∧
    (∃ a b, "Error: File '" ++ filename ++ "' not found in archive at timestamp "
        ++ timestamp ++ "." = a ++ timestamp ++ b) := by
  have hres : (get_historical_content env timestamp filename).1 =
      Outcome.ok ("Error: File '" ++ filename ++ "' not found in archive at timestamp "
        ++ timestamp ++ ".") := by
    simp [get_historical_content, ghcBody, run_datezip, hcode, habsent]
  refine ⟨hres, ?_, ?_, ?_⟩
  · intro msg h
    rw [hres] at h
    cases h
  · exact ⟨"Error: File '", "' not found in archive at timestamp " ++ timestamp ++ ".",
      by simp [String.append_assoc]⟩
  · exact ⟨"Error: File '" ++ filename ++ "' not found in archive at timestamp ", ".",
      by simp [String.append_assoc]⟩

/-- Witness for C4 at a concrete environment: the command succeeds,
`src/main.py` is absent, and the call returns the per-file error message. -/
theorem C4_missing_file_per_file_error_witness :
    (get_historical_content envGhcMissing "20240216_143000" "src/main.py").1 =
      Outcome.ok ("Error: File '" ++ "src/main.py" ++ "' not found in archive at timestamp "
        ++ "20240216_143000" ++ ".") ∧
    (∀ msg, (get_historical_content envGhcMissing "20240216_143000" "src/main.py").1 ≠
      Outcome.raised msg) ∧
    (∃ a b, "Error: File '" ++ "src/main.py" ++ "' not found in archive at timestamp "
        ++ "20240216_143000" ++ "." = a ++ "src/main.py" ++ b) ∧
    (∃ a b, "Error: File '" ++ "src/main.py" ++ "' not found in archive at timestamp "
        ++ "20240216_143000" ++ "." = a ++ "20240216_143000" ++ b) :=
  C4_missing_file_per_file_error envGhcMissing "20240216_143000" "src/main.py" rfl rfl

/-- C8: `create_backup` passes `--full` for mode `"full"`, `--inc` for mode
`"inc"` and no mode flag for `"auto"`; it reports success exactly when the
command exits zero (the success and failure messages are disjoint), and on
a nonzero exit its message carries the command's error output (stderr, or
stdout when stderr is empty). -/
theorem C8_create_backup_mode_flags (env : Env) (mode : String) :
    createBackupArgs "full" = ["--full"] ∧
    createBackupArgs "inc" = ["--inc"] ∧
    createBackupArgs "auto" = [] ∧
    (create_backup env mode =
        "Backup successful:\n" ++ (run_datezip env (createBackupArgs mode)).stdout
      ↔ (run_datezip env (createBackupArgs mode)).code = 0) ∧
    ((run_datezip env (createBackupArgs mode)).code ≠ 0 →
      create_backup env mode =
        "Backup failed:\n" ++ pyOr (run_datezip env (createBackupArgs mode)).stderr
          (run_datezip env (createBackupArgs mode)).stdout) := by
  refine ⟨rfl, rfl, rfl, ?_, ?_⟩
  · constructor
    · intro h
      by_contra hc
      have hfail : create_backup env mode =
          "Backup failed:\n" ++ pyOr (run_datezip env (createBackupArgs mode)).stderr
            (run_datezip env (createBackupArgs mode)).stdout := by
        simp [create_backup, hc]
      rw [hfail] at h
      exact backup_success_ne_failed _ _ h.symm
    · intro h
      simp [create_backup, h]
  · intro h
    simp [create_backup, h]

/-- C9: every mode string other than `"full"` and `"inc"` — `"FULL"`,
`"Auto"`, arbitrary text — makes `create_backup` behave exactly as mode
`"auto"`: no mode flag is passed and no validation failure is produced. -/
theorem C9_unknown_mode_like_auto (env : Env) (mode : String)
    (hfull : mode ≠ "full") (hinc : mode ≠ "inc") :
    createBackupArgs mode = [] ∧ create_backup env mode = create_backup env "auto" := by
  have hargs : createBackupArgs mode = [] := by
    simp [createBackupArgs, hfull, hinc]
  refine ⟨hargs, ?_⟩
  unfold create_backup
  rw [hargs]
  rfl

/-- Witness for C9 at the concrete mode `"FULL"` (wrong case): it is treated
as `"auto"`. -/
theorem C9_unknown_mode_like_auto_witness :
    createBackupArgs "FULL" = [] ∧ create_backup envFail "FULL" = create_backup envFail "auto" :=
  C9_unknown_mode_like_auto envFail "FULL" (by decide) (by decide)

/-- C10: `restore_state` forwards its `restore_type` argument verbatim to
the external command (as the value right after `--restore-type`) for every
string value, and never validates or rejects it: the result is determined
solely by the command's exit code and output. -/
theorem C10_restore_type_forwarded_verbatim (env : Env) (timestamp : String)
    (files : Option (List String)) (restore_type : String) :
    List.get? (restore_state_args timestamp files restore_type) 0 = some "--restore-time" ∧
    List.get? (restore_state_args timestamp files restore_type) 1 = some timestamp ∧
    List.get? (restore_state_args timestamp files restore_type) 2 = some "--restore-type" ∧
    List.get? (restore_state_args timestamp files restore_type) 3 = some restore_type ∧
    restore_state env timestamp files restore_type =
      (if (run_datezip env (restore_state_args timestamp files restore_type)).code ≠ 0 then
        "Restore failed:\n" ++
          pyOr (run_datezip env (restore_state_args timestamp files restore_type)).stderr
            (run_datezip env (restore_state_args timestamp files restore_type)).stdout
      else
        "Restore successful:\n" ++
          (run_datezip env (restore_state_args timestamp files restore_type)).stdout) := by
  exact ⟨rfl, rfl, rfl, rfl, rfl⟩



/-- C2 counterexample: a concrete `restore_state` call carries no
destination flag at all — the caller cannot specify (and has not specified)
a destination directory for the restored files. -/
theorem C2_restore_state_no_dest_counterexample :
    destFlag (restore_state_args "20240216_143000" (some ["src/main.py"]) "e") = none ∧
    "--dest" ∉ restore_state_args "20240216_143000" (some ["src/main.py"]) "e" := by
  exact ⟨by decide, by decide⟩

/-- C2 amended: `restore_state` invokes the external command with only the
timestamp, restore type, and optional comma-joined file list — no
destination flag — so the restored files go to the command's default
destination (per the tool's own docstring, the live workspace), not to a
caller-specified directory.  The hypotheses exclude only the degenerate
inputs that happen to spell `--dest` themselves. -/
theorem C2_restore_state_targets_default_dest (timestamp restore_type : String)
    (files : Option (List String))
    (h1 : timestamp ≠ "--dest") (h2 : restore_type ≠ "--dest")
    (h3 : ∀ fs, files = some fs → String.intercalate "," fs ≠ "--dest") :
    "--dest" ∉ restore_state_args timestamp files restore_type ∧
    destFlag (restore_state_args timestamp files restore_type) = none := by
  have hmem : "--dest" ∉ restore_state_args timestamp files restore_type := by
    intro hm
    rcases files with _ | fs
    · simp only [restore_state_args, pyTruthyList, Bool.false_eq_true, if_false,
        List.append_nil, List.mem_cons, List.not_mem_nil, or_false] at hm
      rcases hm with h | h | h | h
      · exact absurd h (by decide)
      · exact h1 h.symm
      · exact absurd h (by decide)
      · exact h2 h.symm
    · rcases fs with _ | ⟨p, ps⟩
      · simp only [restore_state_args, pyTruthyList, Bool.false_eq_true, if_false,
          List.append_nil, List.mem_cons, List.not_mem_nil, or_false] at hm
        rcases hm with h | h | h | h
        · exact absurd h (by decide)
        · exact h1 h.symm
        · exact absurd h (by decide)
        · exact h2 h.symm
      · simp only [restore_state_args, pyTruthyList, if_true, List.mem_append,
          List.mem_cons, List.not_mem_nil, or_false, Option.getD_some] at hm
        rcases hm with (h | h | h | h) | (h | h)
        · exact absurd h (by decide)
        · exact h1 h.symm
        · exact absurd h (by decide)
        · exact h2 h.symm
        · exact absurd h (by decide)
        · exact h3 (p :: ps) rfl h.symm
  exact ⟨hmem, destFlag_eq_none hmem⟩

/-- Witness for C2's amended theorem at a concrete call. -/
theorem C2_restore_state_targets_default_dest_witness :
    "--dest" ∉ restore_state_args "20240216_150000" (some ["a.txt", "b.txt"]) "j" ∧
    destFlag (restore_state_args "20240216_150000" (some ["a.txt", "b.txt"]) "j") = none :=
  C2_restore_state_targets_default_dest "20240216_150000" "j" (some ["a.txt", "b.txt"])
    (by decide) (by decide) (fun fs h => by cases h; decide)

/-- C3 counterexample: with `files = []`, `get_history` passes no `--files`
flag at all (Python's `if files:` is false for an empty list), so the
request is unrestricted rather than restricted to zero paths. -/
theorem C3_empty_files_counterexample :
    get_history_args (some []) none none = ["--history"] ∧
    "--files" ∉ get_history_args (some []) none none := by
  exact ⟨rfl, by decide⟩

/-- C3 amended: for a present non-empty `files` the command is invoked with
`--files` and the comma-joined list of exactly those paths; `files = []`
behaves exactly like an omitted `files` (no flag, no restriction); a
present non-empty `from_ts`/`to_ts` adds `--from`/`--to` with that bound,
and an omitted (or empty-string) bound adds no flag. -/
theorem C3_history_filter_flags (files : Option (List String)) (from_ts to_ts : Option String) :
    get_history_args files from_ts to_ts = historyFlagsSpec files from_ts to_ts ∧
    get_history_args (some []) from_ts to_ts = get_history_args none from_ts to_ts ∧
    (∀ p ps, List.IsInfix ["--files", String.intercalate "," (p :: ps)]
      (get_history_args (some (p :: ps)) from_ts to_ts)) ∧
    get_history_args none none none = ["--history"] := by
  refine ⟨?_, ?_, ?_, rfl⟩
  · rcases files with _ | (_ | ⟨p, ps⟩) <;>
      rcases from_ts with _ | sf <;>
      rcases to_ts with _ | st <;>
      simp only [get_history_args, historyFlagsSpec, pyTruthyList, pyTruthyStr,
        Bool.false_eq_true, if_false, Option.getD_some, Bool.not_eq_true'] <;>
      first
      | rfl
      | (by_cases hf : sf = "" <;> simp [hf])
      | (by_cases ht : st = "" <;> simp [ht])
  · rfl
  · intro p ps
    refine ⟨["--history"], ?_⟩
    refine ⟨(if pyTruthyStr from_ts then ["--from", from_ts.getD ""] else [])
      ++ (if pyTruthyStr to_ts then ["--to", to_ts.getD ""] else []), ?_⟩
    simp [get_history_args, pyTruthyList]

/-- C5: `list_backups` and `get_history` fail — with the command's stderr in
the error — exactly when the external command exits nonzero; on exit zero
they return the parsed (possibly empty) list, and an empty stdout yields
the empty list as a success, distinct from any failure. -/
theorem C5_failure_iff_nonzero_exit (env : Env) (files : Option (List String))
    (from_ts to_ts : Option String) :
    (exceptIsOk (list_backups env) = true ↔ (run_datezip env ["--list"]).code = 0) ∧
    ((run_datezip env ["--list"]).code ≠ 0 →
      list_backups env =
        Except.error ("Failed to list backups: " ++ (run_datezip env ["--list"]).stderr)) ∧
    ((run_datezip env ["--list"]).code = 0 →
      list_backups env = Except.ok (parseListBackups (run_datezip env ["--list"]).stdout)) ∧
    ((run_datezip env ["--list"]).code = 0 → (run_datezip env ["--list"]).stdout = "" →
      list_backups env = Except.ok []) ∧
    (exceptIsOk (get_history env files from_ts to_ts) = true ↔
      (run_datezip env (get_history_args files from_ts to_ts)).code = 0) ∧
    ((run_datezip env (get_history_args files from_ts to_ts)).code ≠ 0 →
      get_history env files from_ts to_ts =
        Except.error ("Failed to get history: " ++
          (run_datezip env (get_history_args files from_ts to_ts)).stderr)) ∧
    ((run_datezip env (get_history_args files from_ts to_ts)).code = 0 →
      get_history env files from_ts to_ts =
        Except.ok (parseHistory (run_datezip env (get_history_args files from_ts to_ts)).stdout)) ∧
    ((run_datezip env (get_history_args files from_ts to_ts)).code = 0 →
      (run_datezip env (get_history_args files from_ts to_ts)).stdout = "" →
      get_history env files from_ts to_ts = Except.ok []) := by
  have hpl : parseListBackups "" = [] := rfl
  have hph : parseHistory "" = [] := rfl
  refine ⟨?_, ?_, ?_, ?_, ?_, ?_, ?_, ?_⟩
  · by_cases hc : (run_datezip env ["--list"]).code = 0 <;>
      simp [list_backups, exceptIsOk, hc]
  · intro hc
    simp [list_backups, hc]
  · intro hc
    simp [list_backups, hc]
  · intro hc hs
    simp [list_backups, hc, hs, hpl]
  · by_cases hc : (run_datezip env (get_history_args files from_ts to_ts)).code = 0 <;>
      simp [get_history, exceptIsOk, hc]
  · intro hc
    simp [get_history, hc]
  · intro hc
    simp [get_history, hc]
  · intro hc hs
    simp [get_history, hc, hs, hph]



/-- C6: every element `list_backups` returns has a filename of the form
`datezip_<timestamp>_<FULL|INC>.zip`, a timestamp matching
`[0-9]{8}_[0-9]{6}`, and a type equal to `FULL` or `INC`, and each element
comes from one line of the command's `--list` output whose stripped text
matches the indexed pattern; a line the pattern does not match contributes
no element (the parse keeps exactly the matching lines). -/
theorem C6_list_backups_entry_format (env : Env) (l : List BackupEntry) (e : BackupEntry)
    (hok : list_backups env = Except.ok l) (he : e ∈ l) :
    e.filename = "datezip_" ++ e.timestamp ++ "_" ++ e.type ++ ".zip" ∧
    tsFormatB e.timestamp = true ∧
    (e.type = "FULL" ∨ e.type = "INC") ∧
    ∃ line ∈ pySplitlines (run_datezip env ["--list"]).stdout,
      listBackupsMatch (pyStrip line).data = some (e.filename, e.timestamp, e.type) := by
  simp only [list_backups] at hok
  by_cases hc : (run_datezip env ["--list"]).code ≠ 0
  · rw [if_pos hc] at hok
    cases hok
  · rw [if_neg hc] at hok
    injection hok with hok
    subst hok
    simp only [parseListBackups] at he
    obtain ⟨line, hline, hsome⟩ := List.mem_filterMap.mp he
    obtain ⟨r, hmatch, hmk⟩ := Option.map_eq_some'.mp hsome
    obtain ⟨fn, tss, tys⟩ := r
    subst hmk
    obtain ⟨h1, h2, h3⟩ := listBackupsMatch_eq_some hmatch
    exact ⟨h1, h2, h3, line, hline, hmatch⟩

/-- Witness for C6: a concrete two-archive listing with a trailing summary
line; the first parsed entry has the claimed shape. -/
theorem C6_list_backups_entry_format_witness :
    sampleFull.filename =
      "datezip_" ++ sampleFull.timestamp ++ "_" ++ sampleFull.type ++ ".zip" ∧
    tsFormatB sampleFull.timestamp = true ∧
    (sampleFull.type = "FULL" ∨ sampleFull.type = "INC") ∧
    ∃ line ∈ pySplitlines (run_datezip envListSample ["--list"]).stdout,
      listBackupsMatch (pyStrip line).data =
        some (sampleFull.filename, sampleFull.timestamp, sampleFull.type) :=
  C6_list_backups_entry_format envListSample [sampleFull, sampleInc] sampleFull rfl
    (List.Mem.head _)

/-- C7: every entry `get_history` returns has status `"new"` or
`"modified"` — `"new"` exactly when the matched line's marker is `'+'`,
`"modified"` exactly when it is `'.'` — a timestamp matching
`[0-9]{8}_[0-9]{6}`, and a file equal to the remainder of the matched line
after the marker and its following whitespace (the stripped line decomposes
as timestamp, whitespace, marker, whitespace, file). -/
theorem C7_history_entry_status_format (env : Env) (files : Option (List String))
    (from_ts to_ts : Option String) (l : List HistoryEntry) (e : HistoryEntry)
    (hok : get_history env files from_ts to_ts = Except.ok l) (he : e ∈ l) :
    (e.status = "new" ∨ e.status = "modified") ∧
    tsFormatB e.timestamp = true ∧
    ∃ line ∈ pySplitlines (run_datezip env (get_history_args files from_ts to_ts)).stdout,
      ∃ m, historyMatch (pyStrip line).data = some (e.timestamp, m, e.file) ∧
        (e.status = "new" ↔ m = '+') ∧ (e.status = "modified" ↔ m = '.') ∧
        ∃ w1 w2, (pyStrip line).data =
            e.timestamp.data ++ (w1 ++ (m :: (w2 ++ e.file.data))) ∧
          w1 ≠ [] ∧ w2 ≠ [] ∧
          (∀ c ∈ w1, pyWhitespace c = true) ∧ (∀ c ∈ w2, pyWhitespace c = true) := by
  simp only [get_history] at hok
  by_cases hc : (run_datezip env (get_history_args files from_ts to_ts)).code ≠ 0
  · rw [if_pos hc] at hok
    cases hok
  · rw [if_neg hc] at hok
    injection hok with hok
    subst hok
    simp only [parseHistory] at he
    obtain ⟨line, hline, hsome⟩ := List.mem_filterMap.mp he
    obtain ⟨r, hmatch, hmk⟩ := Option.map_eq_some'.mp hsome
    obtain ⟨tss, mm, fll⟩ := r
    subst hmk
    obtain ⟨hm, hts, -, w1, w2, hdecomp, hw1ne, hw2ne, hw1, hw2⟩ :=
      historyMatch_eq_some hmatch
    rcases hm with rfl | rfl
    · refine ⟨Or.inl rfl, hts, line, hline, '+', hmatch, ?_, ?_,
        w1, w2, hdecomp, hw1ne, hw2ne, hw1, hw2⟩
      · exact ⟨fun _ => rfl, fun _ => rfl⟩
      · exact ⟨fun h => absurd (show ("new" : String) = "modified" from h) (by decide),
          fun h => absurd (show ('+' : Char) = '.' from h) (by decide)⟩
    · refine ⟨Or.inr rfl, hts, line, hline, '.', hmatch, ?_, ?_,
        w1, w2, hdecomp, hw1ne, hw2ne, hw1, hw2⟩
      · exact ⟨fun h => absurd (show ("modified" : String) = "new" from h) (by decide),
          fun h => absurd (show ('.' : Char) = '+' from h) (by decide)⟩
      · exact ⟨fun _ => rfl, fun _ => rfl⟩

/-- Witness for C7: a concrete history with one `+` line, one `.` line and
one garbage line; the first parsed entry has the claimed shape. -/
theorem C7_history_entry_status_format_witness :
    (sampleNew.status = "new" ∨ sampleNew.status = "modified") ∧
    tsFormatB sampleNew.timestamp = true ∧
    ∃ line ∈ pySplitlines (run_datezip envHistorySample (get_history_args none none none)).stdout,
      ∃ m, historyMatch (pyStrip line).data = some (sampleNew.timestamp, m, sampleNew.file) ∧
        (sampleNew.status = "new" ↔ m = '+') ∧ (sampleNew.status = "modified" ↔ m = '.') ∧
        ∃ w1 w2, (pyStrip line).data =
            sampleNew.timestamp.data ++ (w1 ++ (m :: (w2 ++ sampleNew.file.data))) ∧
          w1 ≠ [] ∧ w2 ≠ [] ∧
          (∀ c ∈ w1, pyWhitespace c = true) ∧ (∀ c ∈ w2, pyWhitespace c = true) :=
  C7_history_entry_status_format envHistorySample none none none [sampleNew, sampleMod]
    sampleNew rfl (List.Mem.head _)


end Datezip
